import Mathlib

/-!
Shallow embedding of `db/plugins.py` (vim-awesome plugin reconciliation
and indexing engine), and proofs of the specification claims about it.

Python dictionaries are embedded as functions `String → Option Value`:
`none` means the key is missing from the dict, `some .vnone` means the key
is present with value `None`.  `Value` covers the value universe that the
plugin rows actually use (None, ints/timestamps, strings, lists of
strings).  Python-2 value comparison (used by `max`/`min`/`>` in the
source) is embedded by `pyLt`: `None` sorts below everything, numbers
below all other types, and the remaining types compare by type name
(`list` < `str`), same-type values comparing element-wise.
-/

namespace VimAwesome

/-- Universe of Python values stored in plugin rows. -/
inductive Value where
  | vnone : Value
  | vint (n : Int) : Value
  | vstr (s : String) : Value
  | vlist (l : List String) : Value
  deriving DecidableEq, Repr

/-- A plugin row: a Python dict from field names to values.
`none` = key absent, `some .vnone` = key present holding `None`. -/
def Plugin : Type := String → Option Value

/-- Python truthiness of a value (`bool(v)`). -/
def truthy : Value → Bool
  | .vnone => false
  | .vint n => n != 0
  | .vstr s => !s.isEmpty
  | .vlist l => !l.isEmpty

/-- `d.get(k)`: missing keys read as `None`. -/
def getv (p : Plugin) (k : String) : Value :=
  (p k).getD .vnone

/-- `d.get(k, default)`. -/
def getD (p : Plugin) (k : String) (dflt : Value) : Value :=
  (p k).getD dflt

/-- `d[k] = v` (functional update of one key). -/
def setk (p : Plugin) (k : String) (v : Value) : Plugin :=
  fun k' => if k' = k then some v else p k'

/-- A field is present when the key exists and its value is not `None`
(this is exactly the notion of presence used by `_merge_dict_except_none`,
which filters out `None` values). -/
def isPresent (p : Plugin) (k : String) : Bool :=
  match p k with
  | none => false
  | some v => v != .vnone

/-- Char comparison by code point, as Python 2 compares string bytes. -/
def charLt (a b : Char) : Bool :=
  a.toNat < b.toNat

/-- Lexicographic comparison of char lists (Python 2 string `<`). -/
def strLtChars : List Char → List Char → Bool
  | [], [] => false
  | [], _ :: _ => true
  | _ :: _, [] => false
  | a :: as, b :: bs =>
    if charLt a b then true
    else if a = b then strLtChars as bs
    else false

/-- Python 2 string `<`. -/
def strLt (a b : String) : Bool :=
  strLtChars a.data b.data

/-- Lexicographic comparison of string lists (Python 2 list `<`). -/
def listLt : List String → List String → Bool
  | [], [] => false
  | [], _ :: _ => true
  | _ :: _, [] => false
  | a :: as, b :: bs =>
    if strLt a b then true
    else if a = b then listLt as bs
    else false

/-- Rank of a value's type in Python 2 cross-type ordering:
`None` below everything, numbers below all remaining types, the rest by
type name (`list` < `str`). -/
def typeRank : Value → Nat
  | .vnone => 0
  | .vint _ => 1
  | .vlist _ => 2
  | .vstr _ => 3

/-- Python 2 `<` on our value universe. -/
def pyLt : Value → Value → Bool
  | .vint a, .vint b => a < b
  | .vstr a, .vstr b => strLt a b
  | .vlist a, .vlist b => listLt a b
  | v, w => typeRank v < typeRank w

/-- Python `max(a, b)` (returns `a` on ties). -/
def pyMax (a b : Value) : Value :=
  if pyLt a b then b else a

/-- Python `min(a, b)` (returns `a` on ties). -/
def pyMin (a b : Value) : Value :=
  if pyLt b a then b else a

/-- `is_more_authoritative(repo1, repo2)` from `db/plugins.py`:
whether `repo1` is a different and more authoritative GitHub repo about a
certain plugin than `repo2`.  Two different GitHub repos: take the latest
updated, and break ties by number of stars; otherwise `False`. -/
def is_more_authoritative (repo1 repo2 : Plugin) : Bool :=
  if truthy (getv repo1 "github_url") && truthy (getv repo2 "github_url")
      && (getv repo1 "github_url" != getv repo2 "github_url") then
    if pyLt (getD repo2 "updated_at" (.vint 0)) (getD repo1 "updated_at" (.vint 0)) then
      true
    else if getD repo1 "updated_at" (.vint 0) == getD repo2 "updated_at" (.vint 0) then
      pyLt (getD repo2 "github_stars" (.vint 0)) (getD repo1 "github_stars" (.vint 0))
    else
      false
  else
    false

/-- `_merge_dict_except_none(dict_a, dict_b)`: `dict_a` updated with any
key/value pairs from `dict_b` where the value is not `None`. -/
def _merge_dict_except_none (dict_a dict_b : Plugin) : Plugin :=
  fun k =>
    match dict_b k with
    | some v => if v = .vnone then dict_a k else some v
    | none => dict_a k

/-- `update_plugin(old_plugin, new_plugin)`: merges properties of
`new_plugin` onto `old_plugin`; if `old_plugin` is from a more
authoritative repo, its data wins instead.  Then keeps the latest
`updated_at` and the earliest `created_at` when both sides have truthy
values there. -/
def update_plugin (old_plugin new_plugin : Plugin) : Plugin :=
  let updated :=
    if is_more_authoritative old_plugin new_plugin then
      _merge_dict_except_none new_plugin old_plugin
    else
      _merge_dict_except_none old_plugin new_plugin
  let updated2 :=
    if truthy (getv old_plugin "updated_at") && truthy (getv new_plugin "updated_at") then
      setk updated "updated_at"
        (pyMax (getv old_plugin "updated_at") (getv new_plugin "updated_at"))
    else
      updated
  if truthy (getv old_plugin "created_at") && truthy (getv new_plugin "created_at") then
    setk updated2 "created_at"
      (pyMin (getv old_plugin "created_at") (getv new_plugin "created_at"))
  else
    updated2

/-! ## Slug generation (`_generate_unique_slug`) -/

/-- Read a field expected to hold a string; non-string or missing values
read as the empty string (falsy, like the schema defaults).  The three
name-candidate fields hold strings per `_ROW_SCHEMA`. -/
def getStr (p : Plugin) (k : String) : String :=
  match p k with
  | some (.vstr s) => s
  | _ => ""

/-- Python `a or b` on strings: first truthy (non-empty) operand. -/
def sOr (a b : String) : String :=
  if a ≠ "" then a else b

/-- The candidate name for a plugin's slug:
`plugin.get('vimorg_name') or plugin.get('github_repo_name') or
plugin.get('github_vim_scripts_repo_name')`. -/
def candidate_name (p : Plugin) : String :=
  sOr (getStr p "vimorg_name")
    (sOr (getStr p "github_repo_name") (getStr p "github_vim_scripts_repo_name"))

/-- The fixed pool of disambiguating slug suffixes from the source. -/
def slug_suffixes : List String :=
  [ "all-too-well",
    "back-to-december",
    "better-than-revenge",
    "come-back-be-here",
    "enchanted",
    "fearless",
    "holy-ground",
    "long-live",
    "love-story",
    "mine",
    "ours",
    "red",
    "safe-and-sound",
    "sparks-fly",
    "state-of-grace",
    "sweeter-than-fiction",
    "treacherous",
    "you-belong-with-me" ]

/-- Failure modes of slug generation: the `assert name` in the source
(`InvalidInput`) and the final `raise` when all suffixes collide
(`SlugSpaceExhausted`). -/
inductive SlugError where
  | invalidInput : SlugError
  | slugSpaceExhausted : SlugError
  deriving DecidableEq, Repr

/-- The suffix loop of `_generate_unique_slug`: try
`slugify('%s-%s' % (name, slug_suffix))` for each suffix in the shuffled
order, returning the first untaken result; raise when the pool runs out. -/
def try_suffixes (slugify : String → String) (slug_taken : String → Bool)
    (name : String) : List String → Except SlugError String
  | [] => .error .slugSpaceExhausted
  | sfx :: rest =>
    let slug := slugify (name ++ "-" ++ sfx)
    if !slug_taken slug then .ok slug
    else try_suffixes slugify slug_taken name rest

/-- `_generate_unique_slug(plugin)`.  The external `slugify` library and
the `_slug_taken` DB probe are parameters; `shuffled` is the result of
`random.shuffle(slug_suffixes)` (theorems assume it is a permutation of
`slug_suffixes`). -/
def _generate_unique_slug (slugify : String → String) (slug_taken : String → Bool)
    (shuffled : List String) (plugin : Plugin) : Except SlugError String :=
  let name := candidate_name plugin
  if name = "" then .error .invalidInput
  else
    let slug := slugify name
    if !slug_taken slug then .ok slug
    else try_suffixes slugify slug_taken name shuffled

/-! ## Matching and ingestion (`_find_matching_vimorg_plugins`,
`add_scraped_data`).  The DB table is embedded as a list of rows; the
secondary-index lookup `get_all(v, index='vimorg_id')` is the rows whose
`vimorg_id` field holds exactly the value `v`. -/

/-- `_find_matching_vimorg_plugins(plugin_data)`: with a truthy
`vimorg_id`, return the exact secondary-index matches; otherwise the
function falls off its end, i.e. returns Python `None` (the no-id
heuristic is an unimplemented FIXME in the source). -/
def _find_matching_vimorg_plugins (store : List Plugin) (plugin_data : Plugin) :
    Option (List Plugin) :=
  if truthy (getv plugin_data "vimorg_id") then
    some (store.filter (fun p => p "vimorg_id" == some (getv plugin_data "vimorg_id")))
  else
    none

/-- The store action taken by one `add_scraped_data` call: insert a new
row built from the scraped data, upsert a merged row, or (ambiguous
match) write nothing and emit one `logging.error` report carrying the
scraped payload and the candidates' slugs. -/
inductive IngestAction where
  | insertNew (plugin_data : Plugin) : IngestAction
  | upsertMerged (merged : Plugin) : IngestAction
  | reportConflict (payload : Plugin) (slugs : List (Option Value)) : IngestAction

/-- `add_scraped_data(plugin_data)`: match against the store, then
insert (no match), merge-and-upsert (one match), or report (many). -/
def add_scraped_data (store : List Plugin) (plugin_data : Plugin) : IngestAction :=
  match _find_matching_vimorg_plugins store plugin_data with
  | none => .insertNew plugin_data
  | some [] => .insertNew plugin_data
  | some [p] => .upsertMerged (update_plugin p plugin_data)
  | some ps => .reportConflict plugin_data (ps.map (fun p => p "slug"))

/-- Store contents after an ingest action.  Inserting appends the new
row (its schema-defaults/slug filling is internal to `insert`, modelled
by the abstract `mkRow`); upserting replaces the row at the merged row's
slug; a conflict report writes nothing. -/
def applyIngest (mkRow : Plugin → Plugin) (store : List Plugin) :
    IngestAction → List Plugin
  | .insertNew pd => store ++ [mkRow pd]
  | .upsertMerged m =>
    store.map (fun p => if p "slug" == m "slug" then m else p)
  | .reportConflict _ _ => store

/-- The diagnostic reports emitted by an ingest action: exactly one
`logging.error`, on the ambiguous-match path. -/
def reportsOf : IngestAction → List (Plugin × List (Option Value))
  | .reportConflict payload slugs => [(payload, slugs)]
  | _ => []

/-! ## Search index (`get_search_index`, `_get_search_tokens_for_plugin`) -/

/-- Python 2 `c.lower()` for one character (ASCII case map, as `str.lower`
on byte strings). -/
def lowerChar (c : Char) : Char :=
  if 65 ≤ c.toNat ∧ c.toNat ≤ 90 then Char.ofNat (c.toNat + 32) else c

/-- Python `s.lower()`. -/
def lowerStr (s : String) : String :=
  ⟨s.data.map lowerChar⟩

/-- Helper for `s.split()`: consume chars, breaking words at whitespace
runs (`cur` holds the current word reversed). -/
def splitWsAux : List Char → List Char → List String
  | [], cur => if cur.isEmpty then [] else [String.mk cur.reverse]
  | c :: cs, cur =>
    if c.isWhitespace then
      if cur.isEmpty then splitWsAux cs []
      else String.mk cur.reverse :: splitWsAux cs []
    else splitWsAux cs (c :: cur)

/-- Python `s.split()` (no argument): split on whitespace runs, no empty
tokens. -/
def splitWs (s : String) : List String :=
  splitWsAux s.data []

/-- The fields tokenized for search, in source order. -/
def search_fields : List String :=
  ["name", "tags", "author", "vimorg_short_desc", "github_short_desc"]

/-- The per-value tokenizer inside `_get_search_tokens_for_plugin`:
strings are whitespace-split, lists are pre-tokenized, `None` yields
nothing, and any other type raises (`'Field %s has untokenizable type'`),
reported here as the offending field and value. -/
def tokenizeValue (field : String) (v : Value) : Except (String × Value) (List String) :=
  match v with
  | .vstr s => .ok (splitWs s)
  | .vlist l => .ok l
  | .vnone => .ok []
  | v => .error (field, v)

/-- Walk the search fields in order, skipping missing keys, tokenizing
and lowercasing present values, propagating the first tokenization
error. -/
def tokensForFields (p : Plugin) : List String → Except (String × Value) (List String)
  | [] => .ok []
  | f :: rest =>
    match p f with
    | none => tokensForFields p rest
    | some v =>
      match tokenizeValue f v with
      | .error e => .error e
      | .ok ts =>
        match tokensForFields p rest with
        | .error e => .error e
        | .ok l => .ok (ts.map lowerStr ++ l)

/-- Set-insertion into a duplicate-free token list. -/
def insertToken (l : List String) (t : String) : List String :=
  if t ∈ l then l else l ++ [t]

/-- Collapse a token list into a set (duplicate-free list), as Python's
`set()` does. -/
def dedupTokens (l : List String) : List String :=
  l.foldl insertToken []

/-- `_get_search_tokens_for_plugin(plugin)`: the set of lowercased
keywords generated from the search fields. -/
def _get_search_tokens_for_plugin (p : Plugin) : Except (String × Value) (List String) :=
  match tokensForFields p search_fields with
  | .error e => .error e
  | .ok l => .ok (dedupTokens l)

/-- The fields kept by the `pluck` in `get_search_index`. -/
def search_pluck : List String :=
  ["id", "name", "created_at", "updated_at", "tags", "homepage", "author",
   "vimorg_id", "vimorg_rating", "vimorg_short_desc", "github_stars",
   "github_url", "github_short_desc", "plugin_manager_users"]

/-- Restrict a row to the plucked fields. -/
def pluckRow (fields : List String) (p : Plugin) : Plugin :=
  fun k => if k ∈ fields then p k else none

/-- Read a numeric field with default 0, as the sort key's
`p.get(field, 0)` does (the plucked fields used in the key hold numbers
per the schema). -/
def getInt (p : Plugin) (k : String) : Int :=
  match p k with
  | some (.vint n) => n
  | _ => 0

/-- The composite sort key
`(-plugin_manager_users, -github_stars, -vimorg_rating)`. -/
def sortKey (p : Plugin) : Int × Int × Int :=
  (-(getInt p "plugin_manager_users"), -(getInt p "github_stars"),
   -(getInt p "vimorg_rating"))

/-- Lexicographic `≤` on Python key triples. -/
def tripleLe : Int × Int × Int → Int × Int × Int → Bool
  | (a1, a2, a3), (b1, b2, b3) =>
    if a1 < b1 then true
    else if a1 = b1 then
      if a2 < b2 then true
      else if a2 = b2 then a3 ≤ b3
      else false
    else false

/-- Row comparison used by the in-memory sort. -/
def keyLe (a b : Plugin) : Bool :=
  tripleLe (sortKey a) (sortKey b)

/-- The in-memory `plugins.sort(key=...)`.  Python's `list.sort` is a
stable comparison sort; it is embedded as stable insertion sort over the
key comparison. -/
def sortByKey (l : List Plugin) : List Plugin :=
  l.insertionSort (fun a b => keyLe a b = true)

/-- The keyword-attachment step of `get_search_index`:
`plugin['keywords'] = ' '.join(tokens)`. -/
def addKeywords (p : Plugin) : Except (String × Value) Plugin :=
  match _get_search_tokens_for_plugin p with
  | .error e => .error e
  | .ok toks => .ok (setk p "keywords" (.vstr (" ".intercalate toks)))

/-- The `for plugin in plugins` loop of `get_search_index`: attach the
`keywords` field to every row in order, aborting on the first
tokenization failure. -/
def attachAll : List Plugin → Except (String × Value) (List Plugin)
  | [] => .ok []
  | p :: ps =>
    match addKeywords p with
    | .error e => .error e
    | .ok q =>
      match attachAll ps with
      | .error e => .error e
      | .ok qs => .ok (q :: qs)

/-- `get_search_index()` over a store snapshot: pluck the display/sort
fields, sort in memory by the composite descending key, then attach the
`keywords` field to every row. -/
def get_search_index (store : List Plugin) : Except (String × Value) (List Plugin) :=
  let plucked := store.map (pluckRow search_pluck)
  let sorted := sortByKey plucked
  attachAll sorted

/-- A value the tokenizer accepts: a string, a list, or `None`;
anything else raises in `_get_search_tokens_for_plugin`. -/
def tokenizable : Value → Bool
  | .vint _ => false
  | _ => true

/-! ## Concrete records used by witnesses and counterexamples -/

def c7example : Plugin := fun k =>
  if k = "name" then some (.vstr "Foo Bar")
  else if k = "tags" then some (.vlist ["autocomplete", "C/C++"])
  else none

def c1old : Plugin := fun k =>
  if k = "vimorg_name" then some (.vstr "Syntastic")
  else if k = "vimorg_rating" then some .vnone
  else none

def c1new : Plugin := fun k =>
  if k = "vimorg_name" then some .vnone
  else if k = "vimorg_rating" then some (.vint 4)
  else none

def c3old : Plugin := fun k =>
  if k = "updated_at" then some (.vint 5) else none

def c3new : Plugin := fun k =>
  if k = "updated_at" then some (.vint 0) else none

def c3wOld : Plugin := fun k =>
  if k = "updated_at" then some (.vint 5)
  else if k = "created_at" then some (.vint 7)
  else none

def c3wNew : Plugin := fun k =>
  if k = "updated_at" then some (.vint 3)
  else if k = "created_at" then some (.vint 2)
  else none

/-- Well-typedness of a numeric row field: missing or an integer (the
schema defaults `updated_at` and `github_stars` to `0`; Python-2
cross-type comparison of junk values is out of the claims' scope). -/
def intOrMissing (p : Plugin) (k : String) : Bool :=
  match p k with
  | none => true
  | some (.vint _) => true
  | _ => false

def c2a : Plugin := fun k =>
  if k = "github_url" then some (.vstr "github.com/scrooloose/syntastic")
  else if k = "updated_at" then some (.vint 10)
  else if k = "github_stars" then some (.vint 50)
  else none

def c2b : Plugin := fun k =>
  if k = "github_url" then some (.vstr "github.com/vim-scripts/Syntastic")
  else if k = "updated_at" then some (.vint 10)
  else if k = "github_stars" then some (.vint 7)
  else none

def c2c : Plugin := fun k =>
  if k = "github_url" then some (.vstr "github.com/vim-scripts/Syntastic")
  else if k = "updated_at" then some (.vint 10)
  else if k = "github_stars" then some (.vint 50)
  else none

def c5p : Plugin := fun k =>
  if k = "vimorg_name" then some (.vstr "python") else none

def c6p : Plugin := fun k =>
  if k = "github_repo_name" then some (.vstr "syntastic") else none

def c4a : Plugin := fun k =>
  if k = "slug" then some (.vstr "python")
  else if k = "vimorg_id" then some (.vstr "790") else none

def c4b : Plugin := fun k =>
  if k = "slug" then some (.vstr "python-2")
  else if k = "vimorg_id" then some (.vstr "790") else none

def c4pd : Plugin := fun k =>
  if k = "vimorg_id" then some (.vstr "790")
  else if k = "vimorg_name" then some (.vstr "python.vim") else none

def c10pd : Plugin := fun k =>
  if k = "github_repo_name" then some (.vstr "vim-fugitive")
  else if k = "github_owner" then some (.vstr "tpope") else none

def c8p0 : Plugin := fun k =>
  if k = "name" then some (.vstr "a")
  else if k = "plugin_manager_users" then some (.vint 5)
  else if k = "github_stars" then some (.vint 2)
  else if k = "vimorg_rating" then some (.vint 1) else none

def c8p1 : Plugin := fun k =>
  if k = "name" then some (.vstr "b")
  else if k = "plugin_manager_users" then some (.vint 5)
  else if k = "github_stars" then some (.vint 9)
  else if k = "vimorg_rating" then some (.vint 1) else none

def c8p2 : Plugin := fun k =>
  if k = "name" then some (.vstr "c")
  else if k = "plugin_manager_users" then some (.vint 1)
  else if k = "github_stars" then some (.vint 100)
  else if k = "vimorg_rating" then some (.vint 1) else none

/-! ## Helper lemmas about the merge machinery -/

theorem charLt_irrefl (a : Char) : charLt a a = false := by
  simp [charLt]

theorem strLtChars_irrefl : ∀ l : List Char, strLtChars l l = false
  | [] => rfl
  | a :: as => by simp [strLtChars, charLt_irrefl, strLtChars_irrefl as]

theorem strLt_irrefl (s : String) : strLt s s = false :=
  strLtChars_irrefl s.data

theorem listLt_irrefl : ∀ l : List String, listLt l l = false
  | [] => rfl
  | a :: as => by simp [listLt, strLt_irrefl, listLt_irrefl as]

theorem pyLt_irrefl (v : Value) : pyLt v v = false := by
  cases v with
  | vnone => rfl
  | vint n => simp [pyLt]
  | vstr s => simp [pyLt, strLt_irrefl]
  | vlist l => simp [pyLt, listLt_irrefl]

theorem pyMax_self (v : Value) : pyMax v v = v := by
  simp [pyMax, pyLt_irrefl]

theorem pyMin_self (v : Value) : pyMin v v = v := by
  simp [pyMin, pyLt_irrefl]

theorem is_more_authoritative_self (p : Plugin) : is_more_authoritative p p = false := by
  simp [is_more_authoritative]

theorem merge_dict_self (p : Plugin) : _merge_dict_except_none p p = p := by
  funext k
  unfold _merge_dict_except_none
  cases h : p k with
  | none => rfl
  | some v =>
    by_cases hv : v = .vnone
    · simp [hv, h]
    · simp [hv]

theorem setk_getv_self (p : Plugin) (k : String) (h : truthy (getv p k) = true) :
    setk p k (getv p k) = p := by
  funext k'
  unfold setk
  by_cases hk : k' = k
  · subst hk
    cases hpk : p k' with
    | none => simp [getv, hpk, truthy] at h
    | some v => simp [getv, hpk]
  · simp [hk]

/-- Claim C9 — Merge idempotence: `update_plugin(r, r) = r` for every
record `r`: identical records yield no authority distinction, overlaying
a record onto itself changes nothing, and max/min of equal timestamps is
that timestamp. -/
theorem update_plugin_idempotent (p : Plugin) : update_plugin p p = p := by
  unfold update_plugin
  rw [is_more_authoritative_self]
  simp only [if_false, Bool.false_eq_true, merge_dict_self]
  by_cases hu : truthy (getv p "updated_at") = true
  · by_cases hc : truthy (getv p "created_at") = true
    · simp [hu, hc, pyMax_self, pyMin_self, setk_getv_self, setk_getv_self p _ hu]
    · simp [hu, hc, pyMax_self, setk_getv_self]
  · by_cases hc : truthy (getv p "created_at") = true
    · simp [hu, hc, pyMin_self, setk_getv_self]
    · simp [hu, hc]

theorem merge_dict_keeps_base (a b : Plugin) (f : String) (h : isPresent b f = false) :
    _merge_dict_except_none a b f = a f := by
  unfold _merge_dict_except_none
  cases hb : b f with
  | none => rfl
  | some v =>
    unfold isPresent at h
    rw [hb] at h
    simp at h
    simp [h]

theorem merge_dict_takes_overlay (a b : Plugin) (f : String) (h : isPresent b f = true) :
    _merge_dict_except_none a b f = b f := by
  unfold _merge_dict_except_none
  cases hb : b f with
  | none => unfold isPresent at h; rw [hb] at h; simp at h
  | some v =>
    unfold isPresent at h
    rw [hb] at h
    simp at h
    simp [h]

theorem truthy_of_absent (p : Plugin) (f : String) (h : isPresent p f = false) :
    truthy (getv p f) = false := by
  unfold isPresent at h
  unfold getv
  cases hp : p f with
  | none => rfl
  | some v => rw [hp] at h; simp at h; simp [h, truthy]

/-- After the overlay, `update_plugin` only rewrites the two timestamp
keys, and only when both sides hold truthy values there. -/
theorem update_plugin_overlay_at (old_plugin new_plugin : Plugin) (f : String)
    (hu : f = "updated_at" →
      truthy (getv old_plugin f) = false ∨ truthy (getv new_plugin f) = false)
    (hc : f = "created_at" →
      truthy (getv old_plugin f) = false ∨ truthy (getv new_plugin f) = false) :
    update_plugin old_plugin new_plugin f =
      (if is_more_authoritative old_plugin new_plugin then
        _merge_dict_except_none new_plugin old_plugin
      else
        _merge_dict_except_none old_plugin new_plugin) f := by
  unfold update_plugin
  by_cases hfu : f = "updated_at"
  · subst hfu
    have hguard : (truthy (getv old_plugin "updated_at") &&
        truthy (getv new_plugin "updated_at")) = false := by
      rcases hu rfl with h | h <;> simp [h]
    rw [hguard]
    simp only [Bool.false_eq_true, if_false]
    split
    · simp [setk]
    · rfl
  · by_cases hfc : f = "created_at"
    · subst hfc
      have hguard : (truthy (getv old_plugin "created_at") &&
          truthy (getv new_plugin "created_at")) = false := by
        rcases hc rfl with h | h <;> simp [h]
      rw [hguard]
      simp only [Bool.false_eq_true, if_false]
      split
      · simp [setk]
      · rfl
    · split
      · simp only [setk]
        rw [if_neg hfc]
        split
        · simp only [setk]
          rw [if_neg hfu]
        · rfl
      · split
        · simp only [setk]
          rw [if_neg hfu]
        · rfl

/-- Claim C1 — Merge non-destructiveness: a field present on one side and
absent (missing or `None`) on the other survives `update_plugin` with the
present side's value, in both authority directions of the merge. -/
theorem update_plugin_non_destructive (old_plugin new_plugin : Plugin) (f : String) :
    (isPresent old_plugin f = true → isPresent new_plugin f = false →
      update_plugin old_plugin new_plugin f = old_plugin f) ∧
    (isPresent new_plugin f = true → isPresent old_plugin f = false →
      update_plugin old_plugin new_plugin f = new_plugin f) := by
  constructor
  · intro h1 h2
    rw [update_plugin_overlay_at old_plugin new_plugin f
      (fun _ => Or.inr (truthy_of_absent _ _ h2))
      (fun _ => Or.inr (truthy_of_absent _ _ h2))]
    by_cases ha : is_more_authoritative old_plugin new_plugin = true
    · rw [if_pos ha]
      exact merge_dict_takes_overlay new_plugin old_plugin f h1
    · rw [if_neg ha]
      exact merge_dict_keeps_base old_plugin new_plugin f h2
  · intro h1 h2
    rw [update_plugin_overlay_at old_plugin new_plugin f
      (fun _ => Or.inl (truthy_of_absent _ _ h2))
      (fun _ => Or.inl (truthy_of_absent _ _ h2))]
    by_cases ha : is_more_authoritative old_plugin new_plugin = true
    · rw [if_pos ha]
      exact merge_dict_keeps_base new_plugin old_plugin f h2
    · rw [if_neg ha]
      exact merge_dict_takes_overlay old_plugin new_plugin f h1

/-- Witness for C1 at concrete records: the present `vimorg_name` on the
old side and the present `vimorg_rating` on the new side both survive. -/
theorem update_plugin_non_destructive_witness :
    update_plugin c1old c1new "vimorg_name" = some (.vstr "Syntastic") ∧
    update_plugin c1old c1new "vimorg_rating" = some (.vint 4) :=
  ⟨(update_plugin_non_destructive c1old c1new "vimorg_name").1 (by decide) (by decide),
   (update_plugin_non_destructive c1old c1new "vimorg_rating").2 (by decide) (by decide)⟩

/-- Counterexample to claim C3 as stated: both sides carry a present
(non-`None`) `updated_at`, but because the recomputation guard tests
Python truthiness, a present `updated_at` of `0` on the new side skips
the `max` recomputation and the overlay then overwrites the old `5` with
`0 ≠ max 5 0`. -/
theorem update_plugin_timestamp_counterexample :
    isPresent c3old "updated_at" = true ∧
    isPresent c3new "updated_at" = true ∧
    update_plugin c3old c3new "updated_at" = some (.vint 0) ∧
    ¬ update_plugin c3old c3new "updated_at" = some (.vint (max 5 0)) := by
  decide

theorem pyMax_vint (x y : Int) : pyMax (.vint x) (.vint y) = .vint (max x y) := by
  unfold pyMax pyLt
  by_cases h : x < y
  · simp [h, max_eq_right (le_of_lt h)]
  · simp [h, max_eq_left (le_of_not_lt h)]

theorem pyMin_vint (x y : Int) : pyMin (.vint x) (.vint y) = .vint (min x y) := by
  unfold pyMin pyLt
  by_cases h : y < x
  · simp [h, min_eq_right (le_of_lt h)]
  · simp [h, min_eq_left (le_of_not_lt h)]

/-- Claim C3 (amended) — when both sides carry a *truthy* (integer,
nonzero) timestamp, the merged record's `updated_at` is the maximum and
its `created_at` the minimum of the two sides, independently of which
side was judged more authoritative: these two fields are recomputed after
the authority-based overlay. -/
theorem update_plugin_timestamps (old_plugin new_plugin : Plugin) :
    (∀ x y : Int, old_plugin "updated_at" = some (.vint x) → x ≠ 0 →
      new_plugin "updated_at" = some (.vint y) → y ≠ 0 →
      update_plugin old_plugin new_plugin "updated_at" = some (.vint (max x y))) ∧
    (∀ x y : Int, old_plugin "created_at" = some (.vint x) → x ≠ 0 →
      new_plugin "created_at" = some (.vint y) → y ≠ 0 →
      update_plugin old_plugin new_plugin "created_at" = some (.vint (min x y))) := by
  constructor
  · intro x y hx hx0 hy hy0
    unfold update_plugin
    have hguard : (truthy (getv old_plugin "updated_at") &&
        truthy (getv new_plugin "updated_at")) = true := by
      simp [getv, hx, hy, truthy, hx0, hy0]
    rw [hguard]
    simp only [if_true]
    split
    · simp [setk, getv, hx, hy, pyMax_vint]
    · simp [setk, getv, hx, hy, pyMax_vint]
  · intro x y hx hx0 hy hy0
    unfold update_plugin
    have hguard : (truthy (getv old_plugin "created_at") &&
        truthy (getv new_plugin "created_at")) = true := by
      simp [getv, hx, hy, truthy, hx0, hy0]
    rw [hguard]
    simp only [if_true]
    simp [setk, getv, hx, hy, pyMin_vint]

/-- Witness for the amended C3 at concrete truthy timestamps. -/
theorem update_plugin_timestamps_witness :
    update_plugin c3wOld c3wNew "updated_at" = some (.vint (max 5 3)) ∧
    update_plugin c3wOld c3wNew "created_at" = some (.vint (min 7 2)) :=
  ⟨(update_plugin_timestamps c3wOld c3wNew).1 5 3 rfl (by decide) rfl (by decide),
   (update_plugin_timestamps c3wOld c3wNew).2 7 2 rfl (by decide) rfl (by decide)⟩

theorem getD_int (p : Plugin) (k : String) (h : intOrMissing p k = true) :
    getD p k (.vint 0) = .vint (getInt p k) := by
  unfold intOrMissing at h
  unfold getD getInt
  cases hp : p k with
  | none => rfl
  | some v =>
    rw [hp] at h
    cases v with
    | vint n => rfl
    | vnone => simp at h
    | vstr s => simp at h
    | vlist l => simp at h

theorem pyLt_vint (m n : Int) : pyLt (.vint m) (.vint n) = decide (m < n) := rfl

theorem is_more_authoritative_iff (a b : Plugin)
    (ha1 : intOrMissing a "updated_at" = true) (hb1 : intOrMissing b "updated_at" = true)
    (ha2 : intOrMissing a "github_stars" = true) (hb2 : intOrMissing b "github_stars" = true) :
    is_more_authoritative a b = true ↔
      truthy (getv a "github_url") = true ∧ truthy (getv b "github_url") = true ∧
      getv a "github_url" ≠ getv b "github_url" ∧
      (getInt b "updated_at" < getInt a "updated_at" ∨
       (getInt a "updated_at" = getInt b "updated_at" ∧
        getInt b "github_stars" < getInt a "github_stars")) := by
  unfold is_more_authoritative
  rw [getD_int a "updated_at" ha1, getD_int b "updated_at" hb1,
      getD_int a "github_stars" ha2, getD_int b "github_stars" hb2]
  simp only [pyLt_vint]
  by_cases h1 : truthy (getv a "github_url") = true <;>
    by_cases h2 : truthy (getv b "github_url") = true <;>
      by_cases h3 : getv a "github_url" = getv b "github_url" <;>
        simp [h1, h2, h3, bne, beq_iff_eq]

/-- Claim C2 — `is_more_authoritative(a, b)` is true iff both records
carry a truthy `github_url`, the two URLs differ, and either `a` was
updated strictly later, or the updated timestamps tie and `a` has
strictly more stars; with equal timestamps and equal stars it is false
in both argument orders.  Stated for well-typed rows whose `updated_at`
and `github_stars` are integers or missing. -/
theorem is_more_authoritative_spec (a b : Plugin)
    (ha1 : intOrMissing a "updated_at" = true) (hb1 : intOrMissing b "updated_at" = true)
    (ha2 : intOrMissing a "github_stars" = true) (hb2 : intOrMissing b "github_stars" = true) :
    (is_more_authoritative a b = true ↔
      truthy (getv a "github_url") = true ∧ truthy (getv b "github_url") = true ∧
      getv a "github_url" ≠ getv b "github_url" ∧
      (getInt b "updated_at" < getInt a "updated_at" ∨
       (getInt a "updated_at" = getInt b "updated_at" ∧
        getInt b "github_stars" < getInt a "github_stars"))) ∧
    (getInt a "updated_at" = getInt b "updated_at" →
     getInt a "github_stars" = getInt b "github_stars" →
     is_more_authoritative a b = false ∧ is_more_authoritative b a = false) := by
  refine ⟨is_more_authoritative_iff a b ha1 hb1 ha2 hb2, fun hts hst => ⟨?_, ?_⟩⟩
  · cases h : is_more_authoritative a b
    · rfl
    · exfalso
      rcases (is_more_authoritative_iff a b ha1 hb1 ha2 hb2).mp h with ⟨_, _, _, hcmp⟩
      omega
  · cases h : is_more_authoritative b a
    · rfl
    · exfalso
      rcases (is_more_authoritative_iff b a hb1 ha1 hb2 ha2).mp h with ⟨_, _, _, hcmp⟩
      omega

/-- Witness for C2: a star tie-break in one order, and the
equal-timestamp equal-stars case false in both orders. -/
theorem is_more_authoritative_spec_witness :
    is_more_authoritative c2a c2b = true ∧
    is_more_authoritative c2a c2c = false ∧
    is_more_authoritative c2c c2a = false := by
  refine ⟨(is_more_authoritative_spec c2a c2b (by decide) (by decide) (by decide)
      (by decide)).1.mpr ⟨by decide, by decide, by decide,
        Or.inr ⟨by decide, by decide⟩⟩, ?_, ?_⟩
  · exact ((is_more_authoritative_spec c2a c2c (by decide) (by decide) (by decide)
      (by decide)).2 (by decide) (by decide)).1
  · exact ((is_more_authoritative_spec c2a c2c (by decide) (by decide) (by decide)
      (by decide)).2 (by decide) (by decide)).2

theorem try_suffixes_eq_find (slugify : String → String) (slug_taken : String → Bool)
    (name : String) (l : List String) :
    try_suffixes slugify slug_taken name l =
      match l.find? (fun sfx => !slug_taken (slugify (name ++ "-" ++ sfx))) with
      | some sfx => .ok (slugify (name ++ "-" ++ sfx))
      | none => .error .slugSpaceExhausted := by
  induction l with
  | nil => rfl
  | cons sfx rest ih =>
    unfold try_suffixes
    cases h : slug_taken (slugify (name ++ "-" ++ sfx)) with
    | false =>
      rw [List.find?_cons_of_pos _ (by simp [h])]
      simp [h]
    | true =>
      rw [List.find?_cons_of_neg _ (by simp [h])]
      simp [h, ih]

/-- Claim C5 — Slug collision resolution: on a collision of the base
slug, `_generate_unique_slug` tries `slugify(name ++ "-" ++ suffix)` for
each suffix of the fixed 18-element pool in the shuffled order and
returns the first untaken one; if every suffix is taken it fails with
`SlugSpaceExhausted`; and any returned slug is untaken. -/
theorem generate_slug_collision_spec (slugify : String → String)
    (slug_taken : String → Bool) (shuffled : List String) (p : Plugin)
    (hperm : shuffled.Perm slug_suffixes)
    (hname : candidate_name p ≠ "")
    (hcol : slug_taken (slugify (candidate_name p)) = true) :
    slug_suffixes.length = 18 ∧
    _generate_unique_slug slugify slug_taken shuffled p =
      (match shuffled.find?
          (fun sfx => !slug_taken (slugify (candidate_name p ++ "-" ++ sfx))) with
        | some sfx => .ok (slugify (candidate_name p ++ "-" ++ sfx))
        | none => .error .slugSpaceExhausted) ∧
    ((∀ sfx ∈ slug_suffixes,
        slug_taken (slugify (candidate_name p ++ "-" ++ sfx)) = true) →
      _generate_unique_slug slugify slug_taken shuffled p =
        .error .slugSpaceExhausted) ∧
    (∀ s, _generate_unique_slug slugify slug_taken shuffled p = .ok s →
      slug_taken s = false) := by
  have hgen : _generate_unique_slug slugify slug_taken shuffled p =
      try_suffixes slugify slug_taken (candidate_name p) shuffled := by
    unfold _generate_unique_slug
    rw [if_neg hname]
    simp [hcol]
  refine ⟨by decide, ?_, ?_, ?_⟩
  · rw [hgen, try_suffixes_eq_find]
  · intro hall
    rw [hgen, try_suffixes_eq_find]
    have hnone : shuffled.find?
        (fun sfx => !slug_taken (slugify (candidate_name p ++ "-" ++ sfx))) = none := by
      rw [List.find?_eq_none]
      intro x hx
      simp [hall x (hperm.mem_iff.mp hx)]
    rw [hnone]
  · intro s hs
    rw [hgen, try_suffixes_eq_find] at hs
    cases hfind : shuffled.find?
        (fun sfx => !slug_taken (slugify (candidate_name p ++ "-" ++ sfx))) with
    | none => rw [hfind] at hs; exact absurd hs (by simp)
    | some sfx =>
      rw [hfind] at hs
      simp only [Except.ok.injEq] at hs
      subst hs
      have hp := List.find?_some hfind
      simpa using hp

/-- Witness for C5: with `slugify = id`, only `"python"` taken, and the
identity shuffle, the first suffixed attempt is returned. -/
theorem generate_slug_collision_spec_witness :
    _generate_unique_slug id (fun s => s == "python") slug_suffixes c5p =
      .ok "python-all-too-well" := by
  have h := (generate_slug_collision_spec id (fun s => s == "python") slug_suffixes c5p
    (List.Perm.refl _) (by decide) (by decide)).2.1
  rw [h]
  rfl

theorem try_suffixes_ne_invalid (slugify : String → String) (slug_taken : String → Bool)
    (name : String) (l : List String) :
    try_suffixes slugify slug_taken name l ≠ .error .invalidInput := by
  induction l with
  | nil => simp [try_suffixes]
  | cons sfx rest ih =>
    unfold try_suffixes
    cases h : slug_taken (slugify (name ++ "-" ++ sfx)) with
    | false => simp [h]
    | true => simpa [h] using ih

theorem candidate_name_empty_iff (p : Plugin) :
    candidate_name p = "" ↔
      getStr p "vimorg_name" = "" ∧ getStr p "github_repo_name" = "" ∧
      getStr p "github_vim_scripts_repo_name" = "" := by
  unfold candidate_name sOr
  by_cases h1 : getStr p "vimorg_name" = "" <;>
    by_cases h2 : getStr p "github_repo_name" = "" <;>
      simp [h1, h2]

/-- Claim C6 — Slug candidate derivation: the candidate name prefers
`vimorg_name`, then `github_repo_name`, then
`github_vim_scripts_repo_name`; generation fails with `InvalidInput` iff
all three are absent or empty; and an untaken base slug is returned
immediately (no suffix). -/
theorem generate_slug_candidate_spec (slugify : String → String)
    (slug_taken : String → Bool) (shuffled : List String) (p : Plugin) :
    (_generate_unique_slug slugify slug_taken shuffled p = .error .invalidInput ↔
      getStr p "vimorg_name" = "" ∧ getStr p "github_repo_name" = "" ∧
      getStr p "github_vim_scripts_repo_name" = "") ∧
    (getStr p "vimorg_name" ≠ "" → candidate_name p = getStr p "vimorg_name") ∧
    (getStr p "vimorg_name" = "" → getStr p "github_repo_name" ≠ "" →
      candidate_name p = getStr p "github_repo_name") ∧
    (getStr p "vimorg_name" = "" → getStr p "github_repo_name" = "" →
      candidate_name p = getStr p "github_vim_scripts_repo_name") ∧
    (candidate_name p ≠ "" → slug_taken (slugify (candidate_name p)) = false →
      _generate_unique_slug slugify slug_taken shuffled p =
        .ok (slugify (candidate_name p))) := by
  refine ⟨?_, ?_, ?_, ?_, ?_⟩
  · rw [← candidate_name_empty_iff]
    constructor
    · intro h
      by_cases hn : candidate_name p = ""
      · exact hn
      · exfalso
        unfold _generate_unique_slug at h
        rw [if_neg hn] at h
        by_cases ht : slug_taken (slugify (candidate_name p)) = true
        · simp only [ht] at h
          simp at h
          exact try_suffixes_ne_invalid slugify slug_taken (candidate_name p) shuffled h
        · simp only [Bool.not_eq_true] at ht
          simp [ht] at h
    · intro h
      unfold _generate_unique_slug
      rw [if_pos h]
  · intro h1
    unfold candidate_name sOr
    rw [if_pos h1]
  · intro h1 h2
    unfold candidate_name sOr
    rw [if_neg (by simpa using h1), if_pos h2]
  · intro h1 h2
    unfold candidate_name sOr
    rw [if_neg (by simpa using h1), if_neg (by simpa using h2)]
  · intro h1 h2
    unfold _generate_unique_slug
    rw [if_neg h1]
    simp [h2]

/-- Witness for C6: a record with only `github_repo_name` derives its
candidate from it, and with nothing taken the base slug is returned. -/
theorem generate_slug_candidate_spec_witness :
    candidate_name c6p = "syntastic" ∧
    _generate_unique_slug id (fun _ => false) [] c6p = .ok "syntastic" :=
  ⟨((generate_slug_candidate_spec id (fun _ => false) [] c6p).2.2.1
      (by decide) (by decide)).trans rfl,
   ((generate_slug_candidate_spec id (fun _ => false) [] c6p).2.2.2.2
      (by decide) rfl).trans rfl⟩

/-- Claim C4 — Ambiguous-match atomicity: when matching finds strictly
more than one candidate, `add_scraped_data` writes nothing (the store is
unchanged under any row-building function) and emits exactly one
diagnostic report carrying the full scraped payload and every candidate's
slug. -/
theorem add_scraped_data_ambiguous (store : List Plugin) (plugin_data : Plugin)
    (cands : List Plugin) (mkRow : Plugin → Plugin)
    (hfind : _find_matching_vimorg_plugins store plugin_data = some cands)
    (hmany : 2 ≤ cands.length) :
    applyIngest mkRow store (add_scraped_data store plugin_data) = store ∧
    reportsOf (add_scraped_data store plugin_data) =
      [(plugin_data, cands.map (fun p => p "slug"))] := by
  unfold add_scraped_data
  rw [hfind]
  match cands, hmany with
  | p :: q :: rest, _ => exact ⟨rfl, rfl⟩

/-- Witness for C4: two stored rows share the scraped `vimorg_id`; the
store is untouched and the single report names both slugs. -/
theorem add_scraped_data_ambiguous_witness :
    applyIngest id [c4a, c4b] (add_scraped_data [c4a, c4b] c4pd) = [c4a, c4b] ∧
    reportsOf (add_scraped_data [c4a, c4b] c4pd) =
      [(c4pd, [some (.vstr "python"), some (.vstr "python-2")])] := by
  have h := add_scraped_data_ambiguous [c4a, c4b] c4pd [c4a, c4b] id rfl (by decide)
  exact ⟨h.1, h.2.trans rfl⟩

/-- Claim C10 — Identifier-less scrapes: without a truthy `vimorg_id`,
candidate matching yields nothing (the repository-identity fallback is
unimplemented), so ingestion always takes the insert path and creates a
brand-new record instead of merging into an existing one. -/
theorem add_scraped_data_no_id (store : List Plugin) (plugin_data : Plugin)
    (h : truthy (getv plugin_data "vimorg_id") = false) :
    _find_matching_vimorg_plugins store plugin_data = none ∧
    add_scraped_data store plugin_data = .insertNew plugin_data := by
  have hfind : _find_matching_vimorg_plugins store plugin_data = none := by
    unfold _find_matching_vimorg_plugins
    rw [h]
    rfl
  refine ⟨hfind, ?_⟩
  unfold add_scraped_data
  rw [hfind]

/-- Witness for C10: a GitHub-only scrape with no `vimorg_id` is
inserted as a new record even though the store already holds a row
describing the same plugin. -/
theorem add_scraped_data_no_id_witness :
    add_scraped_data [c4a, c4b] c10pd = .insertNew c10pd :=
  (add_scraped_data_no_id [c4a, c4b] c10pd (by decide)).2

theorem tokensForFields_cons_none (p : Plugin) (f : String) (rest : List String)
    (hp : p f = none) :
    tokensForFields p (f :: rest) = tokensForFields p rest := by
  conv_lhs => unfold tokensForFields
  simp only [hp]

theorem tokensForFields_cons_ok (p : Plugin) (f : String) (rest : List String)
    (v : Value) (ts l : List String) (hp : p f = some v)
    (htok : tokenizeValue f v = .ok ts) (hl : tokensForFields p rest = .ok l) :
    tokensForFields p (f :: rest) = .ok (ts.map lowerStr ++ l) := by
  conv_lhs => unfold tokensForFields
  simp only [hp, htok, hl]

theorem tokensForFields_cons_err1 (p : Plugin) (f : String) (rest : List String)
    (v : Value) (e : String × Value) (hp : p f = some v)
    (htok : tokenizeValue f v = .error e) :
    tokensForFields p (f :: rest) = .error e := by
  conv_lhs => unfold tokensForFields
  simp only [hp, htok]

theorem tokensForFields_cons_err2 (p : Plugin) (f : String) (rest : List String)
    (v : Value) (ts : List String) (e : String × Value) (hp : p f = some v)
    (htok : tokenizeValue f v = .ok ts) (he : tokensForFields p rest = .error e) :
    tokensForFields p (f :: rest) = .error e := by
  conv_lhs => unfold tokensForFields
  simp only [hp, htok, he]

theorem tokensForFields_error_iff (p : Plugin) (fs : List String) :
    (∃ e, tokensForFields p fs = .error e) ↔
      ∃ f ∈ fs, ∃ v, p f = some v ∧ tokenizable v = false := by
  induction fs with
  | nil => simp [tokensForFields]
  | cons f rest ih =>
    rw [List.exists_mem_cons_iff]
    cases hp : p f with
    | none =>
      rw [tokensForFields_cons_none p f rest hp, ih]
      simp [hp]
    | some v =>
      by_cases hv : tokenizable v = true
      · obtain ⟨ts, hts⟩ : ∃ ts, tokenizeValue f v = .ok ts := by
          cases v <;> simp_all [tokenizeValue, tokenizable]
        cases hrest : tokensForFields p rest with
        | error e =>
          rw [tokensForFields_cons_err2 p f rest v ts e hp hts hrest]
          constructor
          · intro _
            exact Or.inr (ih.mp ⟨e, hrest⟩)
          · intro _
            exact ⟨e, rfl⟩
        | ok l =>
          rw [tokensForFields_cons_ok p f rest v ts l hp hts hrest]
          constructor
          · rintro ⟨e, he⟩
            cases he
          · rintro (⟨w, hw, hwf⟩ | hbad)
            · injection hw with hw'
              subst hw'
              rw [hv] at hwf
              cases hwf
            · rcases ih.mpr hbad with ⟨e, he⟩
              rw [hrest] at he
              cases he
      · have hvf : tokenizable v = false := by
          cases h : tokenizable v
          · rfl
          · exact absurd h hv
        have herr : tokenizeValue f v = .error (f, v) := by
          cases v <;> simp_all [tokenizeValue, tokenizable]
        rw [tokensForFields_cons_err1 p f rest v (f, v) hp herr]
        constructor
        · intro _
          exact Or.inl ⟨v, rfl, hvf⟩
        · intro _
          exact ⟨(f, v), rfl⟩

theorem tokensForFields_ok_mem (p : Plugin) (fs : List String) :
    ∀ l, tokensForFields p fs = .ok l → ∀ t,
      (t ∈ l ↔ ∃ f ∈ fs, ∃ v ts, p f = some v ∧ tokenizeValue f v = .ok ts ∧
        t ∈ ts.map lowerStr) := by
  induction fs with
  | nil =>
    intro l hl t
    unfold tokensForFields at hl
    injection hl with hl'
    subst hl'
    simp
  | cons f rest ih =>
    intro l hl t
    rw [List.exists_mem_cons_iff]
    cases hp : p f with
    | none =>
      rw [tokensForFields_cons_none p f rest hp] at hl
      rw [ih l hl t]
      simp [hp]
    | some v =>
      cases htok : tokenizeValue f v with
      | error e =>
        rw [tokensForFields_cons_err1 p f rest v e hp htok] at hl
        cases hl
      | ok ts =>
        cases hrest : tokensForFields p rest with
        | error e =>
          rw [tokensForFields_cons_err2 p f rest v ts e hp htok hrest] at hl
          cases hl
        | ok l0 =>
          rw [tokensForFields_cons_ok p f rest v ts l0 hp htok hrest] at hl
          injection hl with hl'
          subst hl'
          rw [List.mem_append, ih l0 hrest t]
          constructor
          · rintro (hleft | hright)
            · exact Or.inl ⟨v, ts, rfl, htok, hleft⟩
            · exact Or.inr hright
          · rintro (⟨w, ts', hw, htok', hmem⟩ | hright)
            · injection hw with hw'
              subst hw'
              rw [htok] at htok'
              injection htok' with hts'
              subst hts'
              exact Or.inl hmem
            · exact Or.inr hright

theorem tokenContrib_iff (p : Plugin) (f : String) (t : String) :
    (∃ v ts, p f = some v ∧ tokenizeValue f v = .ok ts ∧ t ∈ ts.map lowerStr) ↔
      ((∃ s, p f = some (.vstr s) ∧ t ∈ (splitWs s).map lowerStr) ∨
       (∃ ts, p f = some (.vlist ts) ∧ t ∈ ts.map lowerStr)) := by
  constructor
  · rintro ⟨v, ts, hv, htok, hmem⟩
    cases v with
    | vstr s =>
      injection htok with h
      exact Or.inl ⟨s, hv, h ▸ hmem⟩
    | vlist l =>
      injection htok with h
      exact Or.inr ⟨l, hv, h ▸ hmem⟩
    | vnone =>
      injection htok with h
      rw [← h] at hmem
      simp at hmem
    | vint n =>
      cases htok
  · rintro (⟨s, hv, hmem⟩ | ⟨l, hv, hmem⟩)
    · exact ⟨.vstr s, splitWs s, hv, rfl, hmem⟩
    · exact ⟨.vlist l, l, hv, rfl, hmem⟩

theorem mem_foldl_insertToken (l : List String) :
    ∀ (acc : List String) (t : String),
      (t ∈ l.foldl insertToken acc ↔ t ∈ acc ∨ t ∈ l) := by
  induction l with
  | nil => simp
  | cons x xs ih =>
    intro acc t
    simp only [List.foldl_cons, ih, List.mem_cons]
    unfold insertToken
    by_cases hx : x ∈ acc
    · rw [if_pos hx]
      constructor
      · intro h
        tauto
      · rintro (h | h | h)
        · tauto
        · subst h
          tauto
        · tauto
    · rw [if_neg hx]
      simp only [List.mem_append, List.mem_singleton]
      tauto

theorem nodup_foldl_insertToken (l : List String) :
    ∀ acc : List String, acc.Nodup → (l.foldl insertToken acc).Nodup := by
  induction l with
  | nil => exact fun acc h => h
  | cons x xs ih =>
    intro acc h
    simp only [List.foldl_cons]
    apply ih
    unfold insertToken
    by_cases hx : x ∈ acc
    · rw [if_pos hx]
      exact h
    · rw [if_neg hx]
      simp [List.nodup_append, h, hx]

theorem mem_dedupTokens (l : List String) (t : String) :
    t ∈ dedupTokens l ↔ t ∈ l := by
  unfold dedupTokens
  rw [mem_foldl_insertToken]
  simp

theorem nodup_dedupTokens (l : List String) : (dedupTokens l).Nodup :=
  nodup_foldl_insertToken l [] List.nodup_nil

/-- Claim C7 — Keyword tokenization: the computed keyword set is exactly
the union, over the fixed search fields, of the lowercased tokens of each
present field (string fields whitespace-split, list fields pre-tokenized,
absent or `None` fields contributing nothing), duplicates collapsed; it
fails iff some search field holds an untokenizable value; and the claim's
example record yields exactly `foo`, `bar`, `autocomplete`, `c/c++`. -/
theorem search_tokens_spec (p : Plugin) :
    ((∃ e, _get_search_tokens_for_plugin p = .error e) ↔
      ∃ f ∈ search_fields, ∃ v, p f = some v ∧ tokenizable v = false) ∧
    (∀ l, _get_search_tokens_for_plugin p = .ok l →
      l.Nodup ∧
      ∀ t, t ∈ l ↔ ∃ f ∈ search_fields,
        ((∃ s, p f = some (.vstr s) ∧ t ∈ (splitWs s).map lowerStr) ∨
         (∃ ts, p f = some (.vlist ts) ∧ t ∈ ts.map lowerStr))) ∧
    (_get_search_tokens_for_plugin c7example =
      .ok ["foo", "bar", "autocomplete", "c/c++"]) := by
  refine ⟨?_, ?_, rfl⟩
  · rw [← tokensForFields_error_iff]
    unfold _get_search_tokens_for_plugin
    cases h : tokensForFields p search_fields with
    | error e =>
      constructor
      · intro _
        exact ⟨e, rfl⟩
      · intro _
        exact ⟨e, rfl⟩
    | ok l =>
      constructor
      · rintro ⟨e, he⟩
        cases he
      · rintro ⟨e, he⟩
        cases he
  · intro l hl
    unfold _get_search_tokens_for_plugin at hl
    cases h : tokensForFields p search_fields with
    | error e =>
      rw [h] at hl
      cases hl
    | ok l0 =>
      rw [h] at hl
      injection hl with hl'
      subst hl'
      refine ⟨nodup_dedupTokens l0, fun t => ?_⟩
      rw [mem_dedupTokens, tokensForFields_ok_mem p search_fields l0 h t]
      constructor
      · rintro ⟨f, hf, hcontrib⟩
        exact ⟨f, hf, (tokenContrib_iff p f t).mp hcontrib⟩
      · rintro ⟨f, hf, hcontrib⟩
        exact ⟨f, hf, (tokenContrib_iff p f t).mpr hcontrib⟩

/-- Witness for C7: the example record's token set, evaluated, is
duplicate-free as the membership theorem promises. -/
theorem search_tokens_spec_witness :
    (["foo", "bar", "autocomplete", "c/c++"] : List String).Nodup :=
  ((search_tokens_spec c7example).2.1 ["foo", "bar", "autocomplete", "c/c++"] rfl).1

theorem tripleLe_eq_decide (x y : Int × Int × Int) :
    tripleLe x y =
      decide (x.1 < y.1 ∨ (x.1 = y.1 ∧
        (x.2.1 < y.2.1 ∨ (x.2.1 = y.2.1 ∧ x.2.2 ≤ y.2.2)))) := by
  obtain ⟨a1, a2, a3⟩ := x
  obtain ⟨b1, b2, b3⟩ := y
  unfold tripleLe
  dsimp only
  by_cases h1 : a1 < b1
  · simp [h1]
  · by_cases h2 : a1 = b1
    · by_cases h3 : a2 < b2
      · simp [h1, h2, h3]
      · by_cases h4 : a2 = b2
        · simp [h1, h2, h3, h4]
        · simp [h1, h2, h3, h4]
    · simp [h1, h2]

theorem tripleLe_total (x y : Int × Int × Int) :
    tripleLe x y = true ∨ tripleLe y x = true := by
  rw [tripleLe_eq_decide, tripleLe_eq_decide]
  simp only [decide_eq_true_eq]
  omega

theorem tripleLe_trans (x y z : Int × Int × Int) (h1 : tripleLe x y = true)
    (h2 : tripleLe y z = true) : tripleLe x z = true := by
  rw [tripleLe_eq_decide] at h1 h2 ⊢
  simp only [decide_eq_true_eq] at h1 h2 ⊢
  omega

theorem sortByKey_sorted (l : List Plugin) :
    (sortByKey l).Pairwise (fun a b => keyLe a b = true) := by
  haveI : IsTotal Plugin (fun a b => keyLe a b = true) :=
    ⟨fun a b => tripleLe_total (sortKey a) (sortKey b)⟩
  haveI : IsTrans Plugin (fun a b => keyLe a b = true) :=
    ⟨fun a b c => tripleLe_trans (sortKey a) (sortKey b) (sortKey c)⟩
  exact List.sorted_insertionSort _ l

theorem setk_ne (p : Plugin) (k k' : String) (v : Value) (h : k' ≠ k) :
    setk p k v k' = p k' := by
  unfold setk
  rw [if_neg h]

theorem getInt_setk_ne (p : Plugin) (k k' : String) (v : Value) (h : k' ≠ k) :
    getInt (setk p k v) k' = getInt p k' := by
  unfold getInt
  rw [setk_ne p k k' v h]

theorem addKeywords_sortKey (p q : Plugin) (h : addKeywords p = .ok q) :
    sortKey q = sortKey p := by
  unfold addKeywords at h
  cases htok : _get_search_tokens_for_plugin p with
  | error e =>
    rw [htok] at h
    cases h
  | ok toks =>
    rw [htok] at h
    injection h with h'
    subst h'
    unfold sortKey
    rw [getInt_setk_ne p "keywords" "plugin_manager_users" _ (by decide),
        getInt_setk_ne p "keywords" "github_stars" _ (by decide),
        getInt_setk_ne p "keywords" "vimorg_rating" _ (by decide)]

theorem attachAll_cons_ok (p : Plugin) (ps : List Plugin) (q : Plugin)
    (qs : List Plugin) (hk : addKeywords p = .ok q) (hrest : attachAll ps = .ok qs) :
    attachAll (p :: ps) = .ok (q :: qs) := by
  conv_lhs => unfold attachAll
  simp only [hk, hrest]

theorem attachAll_cons_err1 (p : Plugin) (ps : List Plugin) (e : String × Value)
    (hk : addKeywords p = .error e) : attachAll (p :: ps) = .error e := by
  conv_lhs => unfold attachAll
  simp only [hk]

theorem attachAll_cons_err2 (p : Plugin) (ps : List Plugin) (q : Plugin)
    (e : String × Value) (hk : addKeywords p = .ok q)
    (he : attachAll ps = .error e) : attachAll (p :: ps) = .error e := by
  conv_lhs => unfold attachAll
  simp only [hk, he]

theorem attachAll_mem (ps : List Plugin) :
    ∀ qs, attachAll ps = .ok qs → ∀ q ∈ qs, ∃ p ∈ ps, addKeywords p = .ok q := by
  induction ps with
  | nil =>
    intro qs h q hq
    unfold attachAll at h
    injection h with h'
    subst h'
    cases hq
  | cons p ps' ih =>
    intro qs h q hq
    cases hk : addKeywords p with
    | error e =>
      rw [attachAll_cons_err1 p ps' e hk] at h
      cases h
    | ok q0 =>
      cases hrest : attachAll ps' with
      | error e =>
        rw [attachAll_cons_err2 p ps' q0 e hk hrest] at h
        cases h
      | ok qs' =>
        rw [attachAll_cons_ok p ps' q0 qs' hk hrest] at h
        injection h with h'
        subst h'
        rcases List.mem_cons.mp hq with hq0 | hqs
        · subst hq0
          exact ⟨p, List.mem_cons_self _ _, hk⟩
        · rcases ih qs' hrest q hqs with ⟨p', hp', hk'⟩
          exact ⟨p', List.mem_cons_of_mem _ hp', hk'⟩

theorem attachAll_pairwise (ps : List Plugin) :
    ∀ qs, attachAll ps = .ok qs →
      ps.Pairwise (fun a b => keyLe a b = true) →
      qs.Pairwise (fun a b => keyLe a b = true) := by
  induction ps with
  | nil =>
    intro qs h _
    unfold attachAll at h
    injection h with h'
    subst h'
    exact List.Pairwise.nil
  | cons p ps' ih =>
    intro qs h hp
    cases hk : addKeywords p with
    | error e =>
      rw [attachAll_cons_err1 p ps' e hk] at h
      cases h
    | ok q0 =>
      cases hrest : attachAll ps' with
      | error e =>
        rw [attachAll_cons_err2 p ps' q0 e hk hrest] at h
        cases h
      | ok qs' =>
        rw [attachAll_cons_ok p ps' q0 qs' hk hrest] at h
        injection h with h'
        subst h'
        rcases List.pairwise_cons.mp hp with ⟨hhead, htail⟩
        refine List.Pairwise.cons ?_ (ih qs' hrest htail)
        intro q hq
        rcases attachAll_mem ps' qs' hrest q hq with ⟨p', hp', hk'⟩
        have h1 : sortKey q0 = sortKey p := addKeywords_sortKey p q0 hk
        have h2 : sortKey q = sortKey p' := addKeywords_sortKey p' q hk'
        unfold keyLe
        rw [h1, h2]
        exact hhead p' hp'

/-- Claim C8 — Search ranking order: every successful search-index build
is sorted by the composite key (popularity/reference count, star count,
rating), each component descending with ties broken by the next and
missing components read as zero; and the claim's three-record example
comes out ordered second, first, third. -/
theorem search_index_sorted (store : List Plugin) :
    (∀ out, get_search_index store = .ok out →
      out.Pairwise (fun a b => tripleLe (sortKey a) (sortKey b) = true)) ∧
    ((get_search_index [c8p0, c8p1, c8p2]).toOption.map
        (fun l => l.map (fun p => p "name")) =
      some [some (.vstr "b"), some (.vstr "a"), some (.vstr "c")]) := by
  refine ⟨?_, by decide⟩
  intro out hout
  unfold get_search_index at hout
  exact attachAll_pairwise _ out hout (sortByKey_sorted _)

/-- Witness for C8: the example build's output is pairwise ordered by
the composite key. -/
theorem search_index_sorted_witness :
    ((get_search_index [c8p0, c8p1, c8p2]).toOption.getD []).Pairwise
      (fun a b => tripleLe (sortKey a) (sortKey b) = true) :=
  (search_index_sorted [c8p0, c8p1, c8p2]).1
    ((get_search_index [c8p0, c8p1, c8p2]).toOption.getD []) rfl

end VimAwesome
